import Mathlib

/-!
Verification of the COFF (PE) object emitter in src/binaryToObject/pe.cpp.

The emitter serializes an in-memory blob as a minimal COFF object file:
a file header, one section header, the raw data padded to a 4-byte
boundary, two symbol records bracketing the data, and a trailing string
table holding the two symbol names.

Modelling conventions:
- Bytes are natural numbers; the sink (the spec's `OutputStream`
  collaborator, external to the core) delivers bytes in order, so the
  whole emission is modelled as a `List Nat`.  `writeChunk` becomes list
  append and `writeRepeat 0 k` becomes `List.replicate k 0`, following
  the spec's collaborator contract.
- C strings are modelled as the byte list at the pointer; `strlen`
  counts bytes up to the first NUL, exactly as in C.
- `unsigned` / `uint32_t` arithmetic is carried out on `Nat` with an
  explicit reduction modulo 2^32 wherever the C code computes in a
  32-bit type, and multi-byte fields are serialized little-endian.
-/

namespace PE

/-- The modulus 2^32 of C `unsigned` / `uint32_t` arithmetic. -/
def U32 : Nat := 4294967296

/-- Little-endian serialization of a `uint16_t` field (2 bytes). -/
def u16le (n : Nat) : List Nat := [n % 256, n / 256 % 256]

/-- Little-endian serialization of a `uint32_t` field (4 bytes). -/
def u32le (n : Nat) : List Nat :=
  [n % 256, n / 256 % 256, n / 65536 % 256, n / 16777216 % 256]

/-- C `unsigned` subtraction `a - b` (wraps modulo 2^32). -/
def usub32 (a b : Nat) : Nat := (a % U32 + (U32 - b % U32)) % U32

-- Constants from pe.cpp (verbatim values).
def IMAGE_SIZEOF_SHORT_NAME : Nat := 8
def IMAGE_FILE_RELOCS_STRIPPED : Nat := 1
def IMAGE_FILE_LINE_NUMS_STRIPPED : Nat := 4
def IMAGE_FILE_MACHINE_AMD64 : Nat := 0x8664
def IMAGE_FILE_MACHINE_I386 : Nat := 0x014c
def IMAGE_FILE_32BIT_MACHINE : Nat := 256
def IMAGE_SCN_ALIGN_1BYTES : Nat := 0x100000
def IMAGE_SCN_ALIGN_2BYTES : Nat := 0x200000
def IMAGE_SCN_ALIGN_4BYTES : Nat := 0x300000
def IMAGE_SCN_ALIGN_8BYTES : Nat := 0x400000
def IMAGE_SCN_MEM_EXECUTE : Nat := 0x20000000
def IMAGE_SCN_MEM_READ : Nat := 0x40000000
def IMAGE_SCN_MEM_WRITE : Nat := 0x80000000
def IMAGE_SCN_CNT_CODE : Nat := 32

/-- Struct `IMAGE_FILE_HEADER` from pe.cpp (packed, 20 bytes when serialized). -/
structure IMAGE_FILE_HEADER where
  Machine : Nat
  NumberOfSections : Nat
  TimeDateStamp : Nat
  PointerToSymbolTable : Nat
  NumberOfSymbols : Nat
  SizeOfOptionalHeader : Nat
  Characteristics : Nat

/-- Byte serialization of the packed `IMAGE_FILE_HEADER` (little-endian fields). -/
def IMAGE_FILE_HEADER.bytes (h : IMAGE_FILE_HEADER) : List Nat :=
  u16le h.Machine ++ u16le h.NumberOfSections ++ u32le h.TimeDateStamp
    ++ u32le h.PointerToSymbolTable ++ u32le h.NumberOfSymbols
    ++ u16le h.SizeOfOptionalHeader ++ u16le h.Characteristics

/-- Struct `IMAGE_SECTION_HEADER` from pe.cpp (packed, 40 bytes when serialized).
`Misc` is the `PhysicalAddress`/`VirtualSize` union member. -/
structure IMAGE_SECTION_HEADER where
  Name : List Nat
  Misc : Nat
  VirtualAddress : Nat
  SizeOfRawData : Nat
  PointerToRawData : Nat
  PointerToRelocations : Nat
  PointerToLinenumbers : Nat
  NumberOfRelocations : Nat
  NumberOfLinenumbers : Nat
  Characteristics : Nat

/-- Byte serialization of the packed `IMAGE_SECTION_HEADER`. -/
def IMAGE_SECTION_HEADER.bytes (h : IMAGE_SECTION_HEADER) : List Nat :=
  h.Name ++ u32le h.Misc ++ u32le h.VirtualAddress ++ u32le h.SizeOfRawData
    ++ u32le h.PointerToRawData ++ u32le h.PointerToRelocations
    ++ u32le h.PointerToLinenumbers ++ u16le h.NumberOfRelocations
    ++ u16le h.NumberOfLinenumbers ++ u32le h.Characteristics

/-- Struct `IMAGE_SYMBOL` from pe.cpp (packed, 18 bytes when serialized).
`NShort` and `NLong` are the two words of the `N.Name` union struct;
`SymbolType` is the `Type` field (renamed: `Type` is reserved in Lean). -/
structure IMAGE_SYMBOL where
  NShort : Nat
  NLong : Nat
  Value : Nat
  SectionNumber : Nat
  SymbolType : Nat
  StorageClass : Nat
  NumberOfAuxSymbols : Nat

/-- Byte serialization of the packed `IMAGE_SYMBOL`. -/
def IMAGE_SYMBOL.bytes (s : IMAGE_SYMBOL) : List Nat :=
  u32le s.NShort ++ u32le s.NLong ++ u32le s.Value ++ u16le s.SectionNumber
    ++ u16le s.SymbolType ++ [s.StorageClass % 256, s.NumberOfAuxSymbols % 256]

/-- Function `pad` from pe.cpp: `(n + (4 - 1)) & ~(4 - 1)` in `unsigned` arithmetic;
`~(4 - 1)` as a 32-bit unsigned value is 4294967292. -/
def pad (n : Nat) : Nat := ((n + 3) % U32) &&& 4294967292

/-- C `strlen` on the byte list at the pointer: bytes before the first NUL. -/
def strlen (s : List Nat) : Nat := (s.takeWhile (fun b => b != 0)).length

/-- The bytes of a C string including its NUL terminator. -/
def cstr (s : List Nat) : List Nat := s.takeWhile (fun b => b != 0) ++ [0]

/-- Effect of `strncpy(dst, s, 8)` into the zero-initialized 8-byte `Name`
field: at most 8 bytes of the string, zero-filled up to 8 bytes. -/
def strncpy8 (s : List Nat) : List Nat :=
  ((s.takeWhile (fun b => b != 0)).take 8)
    ++ List.replicate (8 - ((s.takeWhile (fun b => b != 0)).take 8).length) 0

/-- Local `startNameLength` in `writeObject`: `strlen(startName) + 1` stored in `unsigned`. -/
def writeObject.startNameLength (startName : List Nat) : Nat :=
  (strlen startName + 1) % U32

/-- Local `endNameLength` in `writeObject`: `strlen(endName) + 1` stored in `unsigned`. -/
def writeObject.endNameLength (endName : List Nat) : Nat :=
  (strlen endName + 1) % U32

/-- Local `startNameOffset` in `writeObject`: always 4. -/
def writeObject.startNameOffset : Nat := 4

/-- Local `endNameOffset` in `writeObject`: `startNameOffset + startNameLength` (unsigned). -/
def writeObject.endNameOffset (startName : List Nat) : Nat :=
  (writeObject.startNameOffset + writeObject.startNameLength startName) % U32

/-- Local `symbolTableSize` in `writeObject`: `endNameOffset + endNameLength` in `uint32_t`. -/
def writeObject.symbolTableSize (startName endName : List Nat) : Nat :=
  (writeObject.endNameOffset startName + writeObject.endNameLength endName) % U32

/-- The `fileHeader` local of `writeObject`.  `PointerToSymbolTable` is
`sizeof(IMAGE_FILE_HEADER) + sizeof(IMAGE_SECTION_HEADER) + pad(size)`
(the two sizeofs are 20 and 40), computed in `unsigned` arithmetic. -/
def writeObject.fileHeader (size machine machineMask : Nat) : IMAGE_FILE_HEADER where
  Machine := machine
  NumberOfSections := 1
  TimeDateStamp := 0
  PointerToSymbolTable := (20 + 40 + pad size) % U32
  NumberOfSymbols := 2
  SizeOfOptionalHeader := 0
  Characteristics :=
    IMAGE_FILE_RELOCS_STRIPPED ||| IMAGE_FILE_LINE_NUMS_STRIPPED ||| machineMask

/-- The `sectionHeader` local of `writeObject` after the `strncpy` of the name. -/
def writeObject.sectionHeader (size : Nat) (sectionName : List Nat)
    (sectionMask : Nat) : IMAGE_SECTION_HEADER where
  Name := strncpy8 sectionName
  Misc := 0
  VirtualAddress := 0
  SizeOfRawData := pad size
  PointerToRawData := 20 + 40
  PointerToRelocations := 0
  PointerToLinenumbers := 0
  NumberOfRelocations := 0
  NumberOfLinenumbers := 0
  Characteristics := sectionMask

/-- The `startSymbol` local of `writeObject` after `N.Name.Long` is set. -/
def writeObject.startSymbol : IMAGE_SYMBOL where
  NShort := 0
  NLong := writeObject.startNameOffset
  Value := 0
  SectionNumber := 1
  SymbolType := 0
  StorageClass := 2
  NumberOfAuxSymbols := 0

/-- The `endSymbol` local of `writeObject` after `N.Name.Long` is set. -/
def writeObject.endSymbol (size : Nat) (startName : List Nat) : IMAGE_SYMBOL where
  NShort := 0
  NLong := writeObject.endNameOffset startName
  Value := size
  SectionNumber := 1
  SymbolType := 0
  StorageClass := 2
  NumberOfAuxSymbols := 0

/-- Function `writeObject` from pe.cpp: the bytes delivered to the sink, in order.
The two name chunks are `writeChunk(name, strlen(name) + 1)`: the first
`startNameLength` (resp. `endNameLength`) bytes at the pointer. -/
def writeObject (data startName endName sectionName : List Nat)
    (machine machineMask sectionMask : Nat) : List Nat :=
  (writeObject.fileHeader data.length machine machineMask).bytes
    ++ (writeObject.sectionHeader data.length sectionName sectionMask).bytes
    ++ data
    ++ List.replicate (usub32 (pad data.length) data.length) 0
    ++ writeObject.startSymbol.bytes
    ++ (writeObject.endSymbol data.length startName).bytes
    ++ u32le (writeObject.symbolTableSize startName endName)
    ++ (cstr startName).take (writeObject.startNameLength startName)
    ++ (cstr endName).take (writeObject.endNameLength endName)

/-- Modelled from the spec: the `accessFlags` bitmask of the external
`ObjectWriter` abstraction (declared in tools.h, which is not part of
this repository snapshot).  The spec describes it as the flag set
{Writable, Executable}; the two membership tests `accessFlags &
ObjectWriter::Writable` and `accessFlags & ObjectWriter::Executable`
are modelled as the two Boolean fields. -/
structure AccessFlags where
  writable : Bool
  executable : Bool

/-- Machine constant chosen by `PEObjectWriter::write`: AMD64 for an
8-byte word, I386 otherwise. -/
def machineFor (bytesPerWord : Nat) : Nat :=
  if bytesPerWord == 8 then IMAGE_FILE_MACHINE_AMD64 else IMAGE_FILE_MACHINE_I386

/-- Machine characteristics mask chosen by `PEObjectWriter::write`. -/
def machineMaskFor (bytesPerWord : Nat) : Nat :=
  if bytesPerWord == 8 then 0 else IMAGE_FILE_32BIT_MACHINE

/-- The `switch (alignment)` of `PEObjectWriter::write`: the alignment
class flag, or `none` on the `default` (unsupported-alignment) branch. -/
def alignSectionMask (alignment : Nat) : Option Nat :=
  if alignment = 0 then some IMAGE_SCN_ALIGN_1BYTES
  else if alignment = 1 then some IMAGE_SCN_ALIGN_1BYTES
  else if alignment = 2 then some IMAGE_SCN_ALIGN_2BYTES
  else if alignment = 4 then some IMAGE_SCN_ALIGN_4BYTES
  else if alignment = 8 then some IMAGE_SCN_ALIGN_8BYTES
  else none

/-- Section name ".rwx" as bytes. -/
def dotRwx : List Nat := [46, 114, 119, 120]

/-- Section name ".data" as bytes. -/
def dotData : List Nat := [46, 100, 97, 116, 97]

/-- Section name ".text" as bytes. -/
def dotText : List Nat := [46, 116, 101, 120, 116]

/-- The access-flag branch of `PEObjectWriter::write`: starting from the
alignment mask `am`, OR in `IMAGE_SCN_MEM_READ`, then pick the section
name and the remaining characteristic flags. -/
def sectionChoice (am : Nat) (accessFlags : AccessFlags) : List Nat × Nat :=
  let m := am ||| IMAGE_SCN_MEM_READ
  if accessFlags.writable then
    if accessFlags.executable then
      (dotRwx, m ||| (IMAGE_SCN_MEM_WRITE ||| IMAGE_SCN_MEM_EXECUTE ||| IMAGE_SCN_CNT_CODE))
    else
      (dotData, m ||| IMAGE_SCN_MEM_WRITE)
  else
    (dotText, m ||| (IMAGE_SCN_MEM_EXECUTE ||| IMAGE_SCN_CNT_CODE))

/-- The value printed by `fprintf(stderr, "unsupported alignment: %d", x)`
for the `unsigned` argument `x`: reinterpreted as a signed 32-bit int. -/
def printfInt (n : Nat) : Int :=
  if n % U32 < 2147483648 then ((n % U32 : Nat) : Int)
  else ((n % U32 : Nat) : Int) - ((U32 : Nat) : Int)

/-- The diagnostic written to stderr by the unsupported-alignment branch. -/
def unsupportedAlignmentMsg (alignment : Nat) : String :=
  "unsupported alignment: " ++ toString (printfInt alignment) ++ "\n"

/-- Member `PEObjectWriter::write` from pe.cpp: on an unsupported alignment it
reports the diagnostic and fails having written nothing; otherwise it
emits the object through `writeObject` and succeeds. -/
def PEObjectWriter.write (bytesPerWord : Nat) (data startName endName : List Nat)
    (alignment : Nat) (accessFlags : AccessFlags) : Except String (List Nat) :=
  match alignSectionMask alignment with
  | none => Except.error (unsupportedAlignmentMsg alignment)
  | some am =>
    let c := sectionChoice am accessFlags
    Except.ok (writeObject data startName endName c.1
      (machineFor bytesPerWord) (machineMaskFor bytesPerWord) c.2)

/-! ### Helper lemmas -/

lemma land_mask32 (x : Nat) (hx : x < 4294967296) : x &&& 4294967292 = x / 4 * 4 := by
  have h4 : x / 4 * 4 = (x >>> 2) <<< 2 := by
    rw [Nat.shiftRight_eq_div_pow, Nat.shiftLeft_eq]
  have hm : (4294967292 : Nat) = (2 ^ 30 - 1) <<< 2 := by
    rw [Nat.shiftLeft_eq]
    norm_num
  rw [h4, hm]
  apply Nat.eq_of_testBit_eq
  intro i
  rw [Nat.testBit_and, Nat.testBit_shiftLeft, Nat.testBit_shiftLeft,
    Nat.testBit_shiftRight, Nat.testBit_two_pow_sub_one]
  rcases Nat.lt_or_ge i 2 with h2 | h2
  · have d1 : ¬ (i ≥ 2) := by omega
    simp [d1]
  rcases Nat.lt_or_ge i 32 with h32 | h32
  · have he : 2 + (i - 2) = i := by omega
    simp [he, show i ≥ 2 from h2, show i - 2 < 30 from by omega]
  · have hxi : x.testBit (2 + (i - 2)) = false := by
      apply Nat.testBit_lt_two_pow
      have hle : (4294967296 : Nat) ≤ 2 ^ (2 + (i - 2)) := by
        have : (4294967296 : Nat) = 2 ^ 32 := by norm_num
        rw [this]
        exact Nat.pow_le_pow_right (by norm_num) (by omega)
      omega
    simp [show ¬ (i - 2 < 30) from by omega, hxi]

lemma padEq (n : Nat) : pad n = ((n + 3) % U32) / 4 * 4 := by
  apply land_mask32
  have := Nat.mod_lt (n + 3) (y := U32) (by norm_num [U32])
  simpa [U32] using this

lemma pad_lt (n : Nat) : pad n < U32 := by
  rw [padEq]
  exact lt_of_le_of_lt (Nat.div_mul_le_self _ 4)
    (Nat.mod_lt _ (by norm_num [U32]))

lemma usub32_pad_facts (n : Nat) (h : n < U32) :
    usub32 (pad n) n < 4 ∧ (n + usub32 (pad n) n) % 4 = 0 := by
  have hl := pad_lt n
  unfold usub32
  rw [Nat.mod_eq_of_lt hl, Nat.mod_eq_of_lt h, padEq]
  rw [padEq] at hl
  simp only [U32] at *
  omega

lemma pad_no_overflow (n : Nat) (h : n + 3 < U32) :
    pad n = (n + 3) / 4 * 4 ∧ usub32 (pad n) n = pad n - n ∧
      n ≤ pad n ∧ pad n - n < 4 := by
  have hl := pad_lt n
  have hp := padEq n
  unfold usub32
  rw [hp] at hl ⊢
  rw [Nat.mod_eq_of_lt hl, Nat.mod_eq_of_lt (by omega : n < U32)]
  simp only [U32] at *
  omega

lemma u16le_length (n : Nat) : (u16le n).length = 2 := rfl

lemma u32le_length (n : Nat) : (u32le n).length = 4 := rfl

lemma fileHeader_bytes_length (h : IMAGE_FILE_HEADER) : h.bytes.length = 20 := by
  simp [IMAGE_FILE_HEADER.bytes, u16le, u32le]

lemma strncpy8_length (s : List Nat) : (strncpy8 s).length = 8 := by
  simp [strncpy8]

lemma sectionHeader_bytes_length (size : Nat) (sn : List Nat) (mask : Nat) :
    (writeObject.sectionHeader size sn mask).bytes.length = 40 := by
  simp [IMAGE_SECTION_HEADER.bytes, writeObject.sectionHeader, u16le, u32le,
    strncpy8_length]

lemma symbol_bytes_length (s : IMAGE_SYMBOL) : s.bytes.length = 18 := by
  simp [IMAGE_SYMBOL.bytes, u16le, u32le]

lemma takeWhile_ne_zero {l : List Nat} (h : (0 : Nat) ∉ l) :
    l.takeWhile (fun b => b != 0) = l := by
  induction l with
  | nil => rfl
  | cons a t ih =>
    simp only [List.mem_cons, not_or] at h
    have ha : (a != 0) = true := by
      simpa using Ne.symm h.1
    rw [List.takeWhile_cons]
    simp [ha, ih h.2]

lemma strlen_ne_zero {l : List Nat} (h : (0 : Nat) ∉ l) : strlen l = l.length := by
  rw [strlen, takeWhile_ne_zero h]

lemma cstr_ne_zero {l : List Nat} (h : (0 : Nat) ∉ l) : cstr l = l ++ [0] := by
  rw [cstr, takeWhile_ne_zero h]

lemma cstr_length (s : List Nat) : (cstr s).length = strlen s + 1 := by
  simp [cstr, strlen]

lemma strlen_replicate97 (m : Nat) : strlen (List.replicate m 97) = m := by
  rw [strlen, takeWhile_ne_zero, List.length_replicate]
  intro hmem
  have := List.eq_of_mem_replicate hmem
  omega

lemma write_ok {alignment am : Nat} (h : alignSectionMask alignment = some am)
    (bytesPerWord : Nat) (data startName endName : List Nat)
    (accessFlags : AccessFlags) :
    PEObjectWriter.write bytesPerWord data startName endName alignment accessFlags
      = Except.ok (writeObject data startName endName
          (sectionChoice am accessFlags).1 (machineFor bytesPerWord)
          (machineMaskFor bytesPerWord) (sectionChoice am accessFlags).2) := by
  unfold PEObjectWriter.write
  rw [h]

lemma write_err {alignment : Nat} (h : alignSectionMask alignment = none)
    (bytesPerWord : Nat) (data startName endName : List Nat)
    (accessFlags : AccessFlags) :
    PEObjectWriter.write bytesPerWord data startName endName alignment accessFlags
      = Except.error (unsupportedAlignmentMsg alignment) := by
  unfold PEObjectWriter.write
  rw [h]

lemma writeObject_eq (data startName endName sectionName : List Nat)
    (machine machineMask sectionMask : Nat) :
    writeObject data startName endName sectionName machine machineMask sectionMask
      = (writeObject.fileHeader data.length machine machineMask).bytes
        ++ ((writeObject.sectionHeader data.length sectionName sectionMask).bytes
        ++ (data
        ++ (List.replicate (usub32 (pad data.length) data.length) 0
        ++ (writeObject.startSymbol.bytes
        ++ ((writeObject.endSymbol data.length startName).bytes
        ++ (u32le (writeObject.symbolTableSize startName endName)
        ++ ((cstr startName).take (writeObject.startNameLength startName)
        ++ (cstr endName).take (writeObject.endNameLength endName)))))))) := by
  simp [writeObject, List.append_assoc]

lemma writeObject_take20 (data startName endName sectionName : List Nat)
    (machine machineMask sectionMask : Nat) :
    (writeObject data startName endName sectionName machine machineMask
      sectionMask).take 20
      = (writeObject.fileHeader data.length machine machineMask).bytes := by
  rw [writeObject_eq]
  exact List.take_left' (fileHeader_bytes_length _)

/-! ### Claim C5 -/

/-- C5 counterexample: `pad` is computed in 32-bit `unsigned` arithmetic, so at
the legal `unsigned` blob size n = 4294967295 the addition `n + 3` wraps and
`pad` returns 0 rather than `((n + 3) / 4) * 4 = 4294967296`. -/
theorem pad_formula_cex : ¬ (pad 4294967295 = (4294967295 + 3) / 4 * 4) := by
  rw [padEq]
  norm_num [U32]

/-- C5 (amended): for every blob size n with n + 3 < 2^32, `pad n` equals
`((n + 3) / 4) * 4`, the difference `pad n - n` lies in {0, 1, 2, 3} and equals
the `unsigned` difference the code passes to `writeRepeat`, and the `pad n - n`
bytes `writeObject` emits right after the raw data are all zero. -/
theorem pad_spec (n : Nat) (h : n + 3 < U32)
    (data startName endName sectionName : List Nat)
    (machine machineMask sectionMask : Nat) (hn : data.length = n) :
    pad n = (n + 3) / 4 * 4
    ∧ n ≤ pad n
    ∧ pad n - n ∈ ({0, 1, 2, 3} : Set Nat)
    ∧ usub32 (pad n) n = pad n - n
    ∧ ((writeObject data startName endName sectionName machine machineMask
        sectionMask).drop (60 + n)).take (pad n - n)
        = List.replicate (pad n - n) 0
    ∧ ∀ b ∈ ((writeObject data startName endName sectionName machine machineMask
        sectionMask).drop (60 + n)).take (pad n - n), b = 0 := by
  subst hn
  obtain ⟨h1, h2, h3, h4⟩ := pad_no_overflow data.length h
  have hout : writeObject data startName endName sectionName machine machineMask
      sectionMask
      = ((writeObject.fileHeader data.length machine machineMask).bytes
          ++ (writeObject.sectionHeader data.length sectionName sectionMask).bytes
          ++ data)
        ++ (List.replicate (usub32 (pad data.length) data.length) 0
          ++ (writeObject.startSymbol.bytes
            ++ ((writeObject.endSymbol data.length startName).bytes
              ++ (u32le (writeObject.symbolTableSize startName endName)
                ++ ((cstr startName).take (writeObject.startNameLength startName)
                  ++ (cstr endName).take (writeObject.endNameLength endName)))))) := by
    simp [writeObject, List.append_assoc]
  have hslice : ((writeObject data startName endName sectionName machine machineMask
      sectionMask).drop (60 + data.length)).take (pad data.length - data.length)
      = List.replicate (pad data.length - data.length) 0 := by
    rw [hout, List.drop_left' (by
      simp [fileHeader_bytes_length, sectionHeader_bytes_length]
      omega), h2]
    exact List.take_left' (List.length_replicate _ _)
  refine ⟨h1, h3, ?_, h2, hslice, ?_⟩
  · simp only [Set.mem_insert_iff, Set.mem_singleton_iff]
    omega
  · intro b hb
    rw [hslice] at hb
    exact List.eq_of_mem_replicate hb

/-- C5 witness: the amended statement instantiated at n = 5 with a concrete
five-byte blob. -/
theorem pad_spec_witness :
    (5 : Nat) + 3 < U32 ∧ pad 5 = (5 + 3) / 4 * 4 :=
  ⟨by norm_num [U32],
    (pad_spec 5 (by norm_num [U32]) [170, 170, 170, 170, 170] [97] [98] dotText
      34404 0 0 rfl).1⟩

/-! ### Claim C1 -/

/-- C1 counterexample: `startNameLength` is `strlen + 1` stored in `unsigned`,
so for a NUL-free start name of 2^32 - 1 bytes it wraps to 0 and
`writeChunk(startName, startNameLength)` delivers nothing: the emitted stream
omits the start-name-plus-NUL range the claim requires (shown here by a length
mismatch on an empty blob). -/
theorem writeObject_ranges_cex :
    ¬ (writeObject [] (List.replicate 4294967295 97) [98] dotText 34404 0 0
      = (writeObject.fileHeader 0 34404 0).bytes
        ++ (writeObject.sectionHeader 0 dotText 0).bytes
        ++ ([] : List Nat)
        ++ List.replicate (usub32 (pad 0) 0) 0
        ++ writeObject.startSymbol.bytes
        ++ (writeObject.endSymbol 0 (List.replicate 4294967295 97)).bytes
        ++ u32le (writeObject.symbolTableSize (List.replicate 4294967295 97) [98])
        ++ (List.replicate 4294967295 97 ++ [0])
        ++ ([98] ++ [0])) := by
  have hsl : writeObject.startNameLength (List.replicate 4294967295 97) = 0 := by
    rw [writeObject.startNameLength, strlen_replicate97]
    simp only [U32]
  have hu : usub32 (pad 0) 0 = 0 := by decide
  have hend98 : (cstr [98]).take (writeObject.endNameLength [98]) = [98, 0] := by
    decide
  intro h
  have hlen := congrArg List.length h
  rw [writeObject_eq, hsl, List.take_zero, hend98] at hlen
  rw [List.length_nil] at hlen
  repeat rw [List.length_append] at hlen
  rw [List.length_nil] at hlen
  rw [fileHeader_bytes_length, sectionHeader_bytes_length, u32le_length] at hlen
  rw [symbol_bytes_length, symbol_bytes_length] at hlen
  rw [List.length_replicate] at hlen
  rw [List.length_replicate] at hlen
  rw [hu] at hlen
  simp at hlen

/-- C1 (amended): every successful emission whose blob size is an `unsigned`
value (below 2^32) and whose symbol names are NUL-free C strings shorter than
2^32 - 1 bytes (so `strlen + 1` does not wrap) delivers to the sink exactly,
and in this order: the 20-byte file header, the 40-byte section header, the
raw data, the zero padding to a 4-byte boundary, the two 18-byte symbol
records, the 4-byte string-table-size field, and the two NUL-terminated
names — and nothing else. -/
theorem writeObject_emits_exact_ranges
    (data startName endName sectionName : List Nat)
    (machine machineMask sectionMask : Nat)
    (hd : data.length < U32)
    (hs0 : (0 : Nat) ∉ startName) (he0 : (0 : Nat) ∉ endName)
    (hsl : startName.length + 1 < U32) (hel : endName.length + 1 < U32) :
    writeObject data startName endName sectionName machine machineMask sectionMask
      = (writeObject.fileHeader data.length machine machineMask).bytes
        ++ (writeObject.sectionHeader data.length sectionName sectionMask).bytes
        ++ data
        ++ List.replicate (usub32 (pad data.length) data.length) 0
        ++ writeObject.startSymbol.bytes
        ++ (writeObject.endSymbol data.length startName).bytes
        ++ u32le (writeObject.symbolTableSize startName endName)
        ++ (startName ++ [0])
        ++ (endName ++ [0])
    ∧ (writeObject.fileHeader data.length machine machineMask).bytes.length = 20
    ∧ (writeObject.sectionHeader data.length sectionName sectionMask).bytes.length = 40
    ∧ writeObject.startSymbol.bytes.length = 18
    ∧ (writeObject.endSymbol data.length startName).bytes.length = 18
    ∧ (u32le (writeObject.symbolTableSize startName endName)).length = 4
    ∧ usub32 (pad data.length) data.length < 4
    ∧ (data.length + usub32 (pad data.length) data.length) % 4 = 0 := by
  have hsl2 : writeObject.startNameLength startName = startName.length + 1 := by
    simp only [writeObject.startNameLength, strlen_ne_zero hs0]
    exact Nat.mod_eq_of_lt hsl
  have hel2 : writeObject.endNameLength endName = endName.length + 1 := by
    simp only [writeObject.endNameLength, strlen_ne_zero he0]
    exact Nat.mod_eq_of_lt hel
  have hstart : (cstr startName).take (writeObject.startNameLength startName)
      = startName ++ [0] := by
    rw [cstr_ne_zero hs0, hsl2,
      show startName.length + 1 = (startName ++ [0]).length by simp,
      List.take_length]
  have hend : (cstr endName).take (writeObject.endNameLength endName)
      = endName ++ [0] := by
    rw [cstr_ne_zero he0, hel2,
      show endName.length + 1 = (endName ++ [0]).length by simp,
      List.take_length]
  obtain ⟨k4, kmod⟩ := usub32_pad_facts data.length hd
  refine ⟨?_, fileHeader_bytes_length _, sectionHeader_bytes_length _ _ _,
    symbol_bytes_length _, symbol_bytes_length _, u32le_length _, k4, kmod⟩
  rw [writeObject, hstart, hend]

/-- C1 witness: the layout equality instantiated on a concrete five-byte blob
with one-character symbol names. -/
theorem writeObject_emits_exact_ranges_witness :
    ((0 : Nat) ∉ ([97] : List Nat))
    ∧ writeObject [170, 170, 170, 170, 170] [97] [98] dotText 34404 0 0
      = (writeObject.fileHeader 5 34404 0).bytes
        ++ (writeObject.sectionHeader 5 dotText 0).bytes
        ++ [170, 170, 170, 170, 170]
        ++ List.replicate (usub32 (pad 5) 5) 0
        ++ writeObject.startSymbol.bytes
        ++ (writeObject.endSymbol 5 [97]).bytes
        ++ u32le (writeObject.symbolTableSize [97] [98])
        ++ ([97] ++ [0])
        ++ ([98] ++ [0]) := by
  have h := writeObject_emits_exact_ranges [170, 170, 170, 170, 170] [97] [98]
    dotText 34404 0 0 (by norm_num [U32]) (by decide) (by decide)
    (by norm_num [U32]) (by norm_num [U32])
  exact ⟨by decide, h.1⟩

/-! ### Claim C2 -/

/-- C2 counterexample: `PointerToSymbolTable` is a `uint32_t` computed with
`unsigned` addition, so at the legal `unsigned` blob size n = 4294967233
(where pad(n) = 4294967236) the sum 20 + 40 + pad(n) = 2^32 wraps to 0 and the
stored offset is not 20 + 40 + pad(n). -/
theorem fileHeader_offset_cex :
    ¬ ((writeObject.fileHeader 4294967233 (machineFor 8)
        (machineMaskFor 8)).PointerToSymbolTable = 20 + 40 + pad 4294967233) := by
  show ¬ ((20 + 40 + pad 4294967233) % U32 = 20 + 40 + pad 4294967233)
  rw [padEq]
  norm_num [U32]

/-- C2 (amended): for every blob size n and word size, the emitted file header
has section count 1, symbol count 2, and symbol-table offset 20 + 40 + pad(n)
whenever that sum fits in 32 bits (the uint32 field stores it modulo 2^32);
word size 8 selects the AMD64 machine with the 32-bit-machine flag clear, and
word size 4 selects I386 with the flag set; the header occupies the first 20
emitted bytes of every successful write. -/
theorem fileHeader_fields (bytesPerWord n : Nat) (h : 20 + 40 + pad n < U32) :
    (writeObject.fileHeader n (machineFor bytesPerWord)
        (machineMaskFor bytesPerWord)).NumberOfSections = 1
    ∧ (writeObject.fileHeader n (machineFor bytesPerWord)
        (machineMaskFor bytesPerWord)).NumberOfSymbols = 2
    ∧ (writeObject.fileHeader n (machineFor bytesPerWord)
        (machineMaskFor bytesPerWord)).PointerToSymbolTable = 20 + 40 + pad n
    ∧ (bytesPerWord = 8 →
        (writeObject.fileHeader n (machineFor bytesPerWord)
          (machineMaskFor bytesPerWord)).Machine = IMAGE_FILE_MACHINE_AMD64
        ∧ (writeObject.fileHeader n (machineFor bytesPerWord)
            (machineMaskFor bytesPerWord)).Characteristics
              &&& IMAGE_FILE_32BIT_MACHINE = 0)
    ∧ (bytesPerWord = 4 →
        (writeObject.fileHeader n (machineFor bytesPerWord)
          (machineMaskFor bytesPerWord)).Machine = IMAGE_FILE_MACHINE_I386
        ∧ (writeObject.fileHeader n (machineFor bytesPerWord)
            (machineMaskFor bytesPerWord)).Characteristics
              &&& IMAGE_FILE_32BIT_MACHINE = IMAGE_FILE_32BIT_MACHINE)
    ∧ ∀ data startName endName alignment accessFlags out,
        data.length = n →
        PEObjectWriter.write bytesPerWord data startName endName alignment
          accessFlags = Except.ok out →
        out.take 20 = (writeObject.fileHeader n (machineFor bytesPerWord)
          (machineMaskFor bytesPerWord)).bytes := by
  refine ⟨rfl, rfl, Nat.mod_eq_of_lt h, ?_, ?_, ?_⟩
  · intro h8
    subst h8
    refine ⟨rfl, ?_⟩
    show (IMAGE_FILE_RELOCS_STRIPPED ||| IMAGE_FILE_LINE_NUMS_STRIPPED
      ||| machineMaskFor 8) &&& IMAGE_FILE_32BIT_MACHINE = 0
    decide
  · intro h4
    subst h4
    refine ⟨rfl, ?_⟩
    show (IMAGE_FILE_RELOCS_STRIPPED ||| IMAGE_FILE_LINE_NUMS_STRIPPED
      ||| machineMaskFor 4) &&& IMAGE_FILE_32BIT_MACHINE = IMAGE_FILE_32BIT_MACHINE
    decide
  · intro data startName endName alignment accessFlags out hlen hw
    subst hlen
    cases halign : alignSectionMask alignment with
    | none =>
      rw [write_err halign] at hw
      exact absurd hw (by simp)
    | some am =>
      rw [write_ok halign] at hw
      simp only [Except.ok.injEq] at hw
      subst hw
      exact writeObject_take20 _ _ _ _ _ _ _

/-- C2 witness: the amended statement instantiated at word size 8 and n = 5. -/
theorem fileHeader_fields_witness :
    20 + 40 + pad 5 < U32
    ∧ (writeObject.fileHeader 5 (machineFor 8)
        (machineMaskFor 8)).PointerToSymbolTable = 20 + 40 + pad 5 :=
  ⟨by decide, (fileHeader_fields 8 5 (by decide)).2.2.1⟩

/-! ### Claim C4 -/

/-- C4 counterexample: `startNameLength` is `strlen + 1` stored in `unsigned`
and the end-name offset is the `unsigned` sum `4 + startNameLength`, so for a
start name of 4294967292 bytes the sum wraps: the stored end-name offset is 1,
not 4 + len(startName) + 1. -/
theorem stringTable_offsets_cex :
    ¬ (writeObject.endNameOffset (List.replicate 4294967292 97)
        = 4 + strlen (List.replicate 4294967292 97) + 1) := by
  have h1 : writeObject.endNameOffset (List.replicate 4294967292 97) = 1 := by
    rw [writeObject.endNameOffset, writeObject.startNameLength, strlen_replicate97]
    rfl
  rw [h1, strlen_replicate97]
  omega

/-- C4 (amended): whenever len(startName) + len(endName) + 6 < 2^32 (the
lengths being C-string lengths), the string-table-size field equals
4 + (len(startName) + 1) + (len(endName) + 1), the start symbol's name offset
is 4, the end symbol's name offset is 4 + len(startName) + 1, and the 4-byte
size field sits right after the two symbol records in the emitted stream. -/
theorem stringTable_offsets (startName endName : List Nat)
    (h : strlen startName + strlen endName + 6 < U32) :
    writeObject.symbolTableSize startName endName
      = 4 + (strlen startName + 1) + (strlen endName + 1)
    ∧ writeObject.startSymbol.NLong = 4
    ∧ (∀ size, (writeObject.endSymbol size startName).NLong
        = 4 + strlen startName + 1)
    ∧ ∀ data sectionName machine machineMask sectionMask,
        ∃ pre post,
          writeObject data startName endName sectionName machine machineMask
            sectionMask
            = pre ++ u32le (4 + (strlen startName + 1) + (strlen endName + 1))
              ++ post
          ∧ pre.length = 60 + data.length
              + usub32 (pad data.length) data.length + 36 := by
  have hsl : writeObject.startNameLength startName = strlen startName + 1 := by
    rw [writeObject.startNameLength]
    exact Nat.mod_eq_of_lt (by simp only [U32] at h ⊢; omega)
  have hel : writeObject.endNameLength endName = strlen endName + 1 := by
    rw [writeObject.endNameLength]
    exact Nat.mod_eq_of_lt (by simp only [U32] at h ⊢; omega)
  have hoff : writeObject.endNameOffset startName = 4 + strlen startName + 1 := by
    rw [writeObject.endNameOffset, hsl, writeObject.startNameOffset]
    rw [Nat.mod_eq_of_lt (by simp only [U32] at h ⊢; omega)]
    omega
  have hsts : writeObject.symbolTableSize startName endName
      = 4 + (strlen startName + 1) + (strlen endName + 1) := by
    rw [writeObject.symbolTableSize, hoff, hel]
    rw [Nat.mod_eq_of_lt (by simp only [U32] at h ⊢; omega)]
    omega
  refine ⟨hsts, rfl, fun size => hoff, ?_⟩
  intro data sectionName machine machineMask sectionMask
  refine ⟨(writeObject.fileHeader data.length machine machineMask).bytes
      ++ (writeObject.sectionHeader data.length sectionName sectionMask).bytes
      ++ data
      ++ List.replicate (usub32 (pad data.length) data.length) 0
      ++ writeObject.startSymbol.bytes
      ++ (writeObject.endSymbol data.length startName).bytes,
    (cstr startName).take (writeObject.startNameLength startName)
      ++ (cstr endName).take (writeObject.endNameLength endName),
    ?_, ?_⟩
  · rw [← hsts]
    simp [writeObject, List.append_assoc]
  · simp [fileHeader_bytes_length, sectionHeader_bytes_length,
      symbol_bytes_length]
    omega

/-- C4 witness: the amended statement instantiated at one-character names. -/
theorem stringTable_offsets_witness :
    strlen [97] + strlen [98] + 6 < U32
    ∧ writeObject.symbolTableSize [97] [98]
      = 4 + (strlen [97] + 1) + (strlen [98] + 1) :=
  ⟨by decide, (stringTable_offsets [97] [98] (by decide)).1⟩

/-! ### Claim C3 -/

/-- C3: in every emitted object the start symbol record has value 0 and the end
symbol record has value equal to the unpadded blob size (in particular both are
0 for an empty blob); both records carry section index 1, storage class 2 (the
externally-visible class) and zero auxiliary symbols, and their 18-byte
serializations sit right after the padded raw data in the output. -/
theorem symbol_records (data startName endName sectionName : List Nat)
    (machine machineMask sectionMask : Nat) :
    (∃ pre post,
      writeObject data startName endName sectionName machine machineMask sectionMask
        = pre ++ writeObject.startSymbol.bytes
            ++ (writeObject.endSymbol data.length startName).bytes ++ post
      ∧ pre.length = 60 + data.length + usub32 (pad data.length) data.length)
    ∧ writeObject.startSymbol.Value = 0
    ∧ (writeObject.endSymbol data.length startName).Value = data.length
    ∧ writeObject.startSymbol.SectionNumber = 1
    ∧ (writeObject.endSymbol data.length startName).SectionNumber = 1
    ∧ writeObject.startSymbol.StorageClass = 2
    ∧ (writeObject.endSymbol data.length startName).StorageClass = 2
    ∧ writeObject.startSymbol.NumberOfAuxSymbols = 0
    ∧ (writeObject.endSymbol data.length startName).NumberOfAuxSymbols = 0 := by
  refine ⟨⟨(writeObject.fileHeader data.length machine machineMask).bytes
      ++ (writeObject.sectionHeader data.length sectionName sectionMask).bytes
      ++ data
      ++ List.replicate (usub32 (pad data.length) data.length) 0,
    u32le (writeObject.symbolTableSize startName endName)
      ++ ((cstr startName).take (writeObject.startNameLength startName)
        ++ (cstr endName).take (writeObject.endNameLength endName)),
    ?_, ?_⟩, rfl, rfl, rfl, rfl, rfl, rfl, rfl, rfl⟩
  · simp [writeObject, List.append_assoc]
  · simp [fileHeader_bytes_length, sectionHeader_bytes_length]
    omega

/-! ### Claim C6 -/

lemma alignSectionMask_none {alignment : Nat}
    (hmem : alignment ∉ ([0, 1, 2, 4, 8] : List Nat)) :
    alignSectionMask alignment = none := by
  rw [alignSectionMask]
  split_ifs with e0 e1 e2 e4 e8
  · exact absurd (by simp [e0]) hmem
  · exact absurd (by simp [e1]) hmem
  · exact absurd (by simp [e2]) hmem
  · exact absurd (by simp [e4]) hmem
  · exact absurd (by simp [e8]) hmem
  · rfl

/-- C6: the write operation fails precisely when the alignment argument is
outside {0, 1, 2, 4, 8}; on failure it produces the diagnostic naming the
offending value and no bytes reach the sink; every alignment in the set
succeeds, whatever the data, the names and the access flags. -/
theorem write_alignment_policy (bytesPerWord : Nat)
    (data startName endName : List Nat) (alignment : Nat)
    (accessFlags : AccessFlags) :
    ((∃ out, PEObjectWriter.write bytesPerWord data startName endName alignment
        accessFlags = Except.ok out)
      ↔ alignment ∈ ([0, 1, 2, 4, 8] : List Nat))
    ∧ (alignment ∉ ([0, 1, 2, 4, 8] : List Nat) →
        PEObjectWriter.write bytesPerWord data startName endName alignment
          accessFlags = Except.error (unsupportedAlignmentMsg alignment)) := by
  by_cases hmem : alignment ∈ ([0, 1, 2, 4, 8] : List Nat)
  · refine ⟨?_, fun hno => absurd hmem hno⟩
    simp only [hmem, iff_true]
    fin_cases hmem
    · exact ⟨_, write_ok (show alignSectionMask 0 = some IMAGE_SCN_ALIGN_1BYTES
        from rfl) _ _ _ _ _⟩
    · exact ⟨_, write_ok (show alignSectionMask 1 = some IMAGE_SCN_ALIGN_1BYTES
        from rfl) _ _ _ _ _⟩
    · exact ⟨_, write_ok (show alignSectionMask 2 = some IMAGE_SCN_ALIGN_2BYTES
        from rfl) _ _ _ _ _⟩
    · exact ⟨_, write_ok (show alignSectionMask 4 = some IMAGE_SCN_ALIGN_4BYTES
        from rfl) _ _ _ _ _⟩
    · exact ⟨_, write_ok (show alignSectionMask 8 = some IMAGE_SCN_ALIGN_8BYTES
        from rfl) _ _ _ _ _⟩
  · have hnone := alignSectionMask_none hmem
    refine ⟨?_, fun _ => write_err hnone _ _ _ _ _⟩
    rw [write_err hnone]
    simp [hmem]

/-- C6 witness: alignment 3 fails with the diagnostic, alignment 4 succeeds. -/
theorem write_alignment_policy_witness :
    ((3 : Nat) ∉ ([0, 1, 2, 4, 8] : List Nat))
    ∧ PEObjectWriter.write 8 [170] [97] [98] 3 ⟨false, false⟩
        = Except.error (unsupportedAlignmentMsg 3)
    ∧ ∃ out, PEObjectWriter.write 8 [170] [97] [98] 4 ⟨false, false⟩
        = Except.ok out :=
  ⟨by decide,
    (write_alignment_policy 8 [170] [97] [98] 3 ⟨false, false⟩).2 (by decide),
    (write_alignment_policy 8 [170] [97] [98] 4 ⟨false, false⟩).1.mpr (by decide)⟩

/-! ### Claim C7 -/

/-- C7: for every supported alignment and access-flag combination the section
name and characteristics are: writable and executable gives ".rwx" with the
writable, executable and contains-code flags; writable only gives ".data" with
the writable flag; neither gives ".text" with the executable and contains-code
flags; every case also sets the readable flag, and the alignment-class nibble
of the mask is the class selected by the alignment (0 or 1 giving the 1-byte
class, 2, 4 and 8 their own classes). -/
theorem section_attribute_policy (alignment : Nat) (accessFlags : AccessFlags)
    (h : alignment ∈ ([0, 1, 2, 4, 8] : List Nat)) :
    (accessFlags.writable = true → accessFlags.executable = true →
      (sectionChoice ((alignSectionMask alignment).getD 0) accessFlags).1 = dotRwx
      ∧ (sectionChoice ((alignSectionMask alignment).getD 0) accessFlags).2
        = (alignSectionMask alignment).getD 0 ||| IMAGE_SCN_MEM_READ
          ||| IMAGE_SCN_MEM_WRITE ||| IMAGE_SCN_MEM_EXECUTE ||| IMAGE_SCN_CNT_CODE)
    ∧ (accessFlags.writable = true → accessFlags.executable = false →
      (sectionChoice ((alignSectionMask alignment).getD 0) accessFlags).1 = dotData
      ∧ (sectionChoice ((alignSectionMask alignment).getD 0) accessFlags).2
        = (alignSectionMask alignment).getD 0 ||| IMAGE_SCN_MEM_READ
          ||| IMAGE_SCN_MEM_WRITE)
    ∧ (accessFlags.writable = false →
      (sectionChoice ((alignSectionMask alignment).getD 0) accessFlags).1 = dotText
      ∧ (sectionChoice ((alignSectionMask alignment).getD 0) accessFlags).2
        = (alignSectionMask alignment).getD 0 ||| IMAGE_SCN_MEM_READ
          ||| IMAGE_SCN_MEM_EXECUTE ||| IMAGE_SCN_CNT_CODE)
    ∧ (sectionChoice ((alignSectionMask alignment).getD 0) accessFlags).2
        &&& IMAGE_SCN_MEM_READ = IMAGE_SCN_MEM_READ
    ∧ ((alignment = 0 ∨ alignment = 1) →
      (sectionChoice ((alignSectionMask alignment).getD 0) accessFlags).2
        &&& 0xF00000 = IMAGE_SCN_ALIGN_1BYTES)
    ∧ (alignment = 2 →
      (sectionChoice ((alignSectionMask alignment).getD 0) accessFlags).2
        &&& 0xF00000 = IMAGE_SCN_ALIGN_2BYTES)
    ∧ (alignment = 4 →
      (sectionChoice ((alignSectionMask alignment).getD 0) accessFlags).2
        &&& 0xF00000 = IMAGE_SCN_ALIGN_4BYTES)
    ∧ (alignment = 8 →
      (sectionChoice ((alignSectionMask alignment).getD 0) accessFlags).2
        &&& 0xF00000 = IMAGE_SCN_ALIGN_8BYTES) := by
  rcases accessFlags with ⟨w, e⟩
  fin_cases h <;> cases w <;> cases e <;> decide

/-- C7 witness: alignment 4 with the writable-only flags selects ".data". -/
theorem section_attribute_policy_witness :
    (4 : Nat) ∈ ([0, 1, 2, 4, 8] : List Nat)
    ∧ (sectionChoice ((alignSectionMask 4).getD 0) ⟨true, false⟩).1 = dotData :=
  ⟨by decide,
    ((section_attribute_policy 4 ⟨true, false⟩ (by decide)).2.1 rfl rfl).1⟩

/-! ### Claim C8 -/

lemma sectionHeader_bytes_take8 (size : Nat) (sn : List Nat) (mask : Nat)
    (r : List Nat) :
    ((writeObject.sectionHeader size sn mask).bytes ++ r).take 8
      = strncpy8 sn := by
  have h1 : (writeObject.sectionHeader size sn mask).bytes
      = strncpy8 sn ++ (u32le 0 ++ (u32le 0 ++ (u32le (pad size)
        ++ (u32le (20 + 40) ++ (u32le 0 ++ (u32le 0 ++ (u16le 0
        ++ (u16le 0 ++ u32le mask)))))))) := by
    simp [IMAGE_SECTION_HEADER.bytes, writeObject.sectionHeader, List.append_assoc]
  rw [h1, List.append_assoc]
  exact List.take_left' (strncpy8_length _)

/-- C8: bytes 20..27 of every emitted object — the section header's 8-byte
name field — hold the first min(len, 8) bytes of the section-name string,
NUL-padded up to 8 bytes when shorter; a name of 8 or more bytes is truncated
to exactly 8 bytes and the field then contains no NUL byte at all. -/
theorem sectionName_truncation (data startName endName sectionName : List Nat)
    (machine machineMask sectionMask : Nat) :
    (((writeObject data startName endName sectionName machine machineMask
        sectionMask).drop 20).take 8
      = (sectionName.takeWhile (fun b => b != 0)).take 8
        ++ List.replicate
          (8 - min (sectionName.takeWhile (fun b => b != 0)).length 8) 0)
    ∧ ((((writeObject data startName endName sectionName machine machineMask
        sectionMask).drop 20).take 8).length = 8)
    ∧ (8 ≤ (sectionName.takeWhile (fun b => b != 0)).length →
        ((writeObject data startName endName sectionName machine machineMask
            sectionMask).drop 20).take 8
          = (sectionName.takeWhile (fun b => b != 0)).take 8
        ∧ (0 : Nat) ∉ ((writeObject data startName endName sectionName machine
            machineMask sectionMask).drop 20).take 8) := by
  have hfield : ((writeObject data startName endName sectionName machine
      machineMask sectionMask).drop 20).take 8 = strncpy8 sectionName := by
    rw [writeObject_eq, List.drop_left' (fileHeader_bytes_length _)]
    exact sectionHeader_bytes_take8 _ _ _ _
  refine ⟨?_, ?_, fun h8 => ⟨?_, ?_⟩⟩
  · rw [hfield, strncpy8, List.length_take, Nat.min_comm]
  · rw [hfield, strncpy8_length]
  · rw [hfield, strncpy8]
    have hlen : ((sectionName.takeWhile (fun b => b != 0)).take 8).length = 8 := by
      rw [List.length_take]
      omega
    rw [hlen]
    simp
  · rw [hfield, strncpy8]
    intro hmem
    have hlen : ((sectionName.takeWhile (fun b => b != 0)).take 8).length = 8 := by
      rw [List.length_take]
      omega
    rw [hlen] at hmem
    simp only [Nat.sub_self, List.replicate_zero, List.append_nil] at hmem
    have := List.mem_takeWhile_imp (List.take_subset _ _ hmem)
    simp at this

/-- C8 witness: the truncation clause instantiated at a nine-byte name. -/
theorem sectionName_truncation_witness :
    8 ≤ (([46, 108, 111, 110, 103, 110, 97, 109, 101] : List Nat).takeWhile
        (fun b => b != 0)).length
    ∧ ((writeObject [] [] [] [46, 108, 111, 110, 103, 110, 97, 109, 101]
        0 0 0).drop 20).take 8
      = (([46, 108, 111, 110, 103, 110, 97, 109, 101] : List Nat).takeWhile
        (fun b => b != 0)).take 8 :=
  ⟨by decide,
    ((sectionName_truncation [] [] [] [46, 108, 111, 110, 103, 110, 97, 109, 101]
      0 0 0).2.2 (by decide)).1⟩

/-! ### Claim C9 -/

lemma getElem?_patch (a1 a2 x1 x2 mid tail : List Nat)
    (ha1 : a1.length = 2) (ha2 : a2.length = 2)
    (hx1 : x1.length = 2) (hx2 : x2.length = 2) (hmid : mid.length = 16)
    (i : Nat) (i0 : i ≠ 0) (i1 : i ≠ 1) (i18 : i ≠ 18) (i19 : i ≠ 19) :
    (a1 ++ (mid ++ (x1 ++ tail)))[i]?
      = (a2 ++ (mid ++ (x2 ++ tail)))[i]? := by
  rcases Nat.lt_or_ge i 2 with h2 | h2
  · exact absurd h2 (by omega)
  have e1 : (a1 ++ (mid ++ (x1 ++ tail)))[i]?
      = (mid ++ (x1 ++ tail))[i - 2]? := by
    rw [List.getElem?_append_right (by omega), ha1]
  have e2 : (a2 ++ (mid ++ (x2 ++ tail)))[i]?
      = (mid ++ (x2 ++ tail))[i - 2]? := by
    rw [List.getElem?_append_right (by omega), ha2]
  rw [e1, e2]
  rcases Nat.lt_or_ge (i - 2) 16 with h16 | h16
  · rw [List.getElem?_append_left (by omega), List.getElem?_append_left (by omega)]
  have e3 : (mid ++ (x1 ++ tail))[i - 2]?
      = (x1 ++ tail)[i - 2 - 16]? := by
    rw [List.getElem?_append_right (by omega), hmid]
  have e4 : (mid ++ (x2 ++ tail))[i - 2]?
      = (x2 ++ tail)[i - 2 - 16]? := by
    rw [List.getElem?_append_right (by omega), hmid]
  rw [e3, e4]
  have e5 : (x1 ++ tail)[i - 2 - 16]? = tail[i - 2 - 16 - 2]? := by
    rw [List.getElem?_append_right (by omega), hx1]
  have e6 : (x2 ++ tail)[i - 2 - 16]? = tail[i - 2 - 16 - 2]? := by
    rw [List.getElem?_append_right (by omega), hx2]
  rw [e5, e6]

lemma writeObject_fileHeader_split (data startName endName sectionName : List Nat)
    (machine machineMask sectionMask : Nat) :
    writeObject data startName endName sectionName machine machineMask sectionMask
      = u16le machine
        ++ ((u16le 1 ++ (u32le 0 ++ (u32le ((20 + 40 + pad data.length) % U32)
            ++ (u32le 2 ++ u16le 0))))
          ++ (u16le (IMAGE_FILE_RELOCS_STRIPPED ||| IMAGE_FILE_LINE_NUMS_STRIPPED
              ||| machineMask)
            ++ ((writeObject.sectionHeader data.length sectionName sectionMask).bytes
              ++ (data
                ++ (List.replicate (usub32 (pad data.length) data.length) 0
                  ++ (writeObject.startSymbol.bytes
                    ++ ((writeObject.endSymbol data.length startName).bytes
                      ++ (u32le (writeObject.symbolTableSize startName endName)
                        ++ ((cstr startName).take
                            (writeObject.startNameLength startName)
                          ++ (cstr endName).take
                            (writeObject.endNameLength endName)))))))))) := by
  simp [writeObject, IMAGE_FILE_HEADER.bytes, writeObject.fileHeader,
    List.append_assoc]

/-- C9: for identical inputs, the byte streams produced by the 32-bit and the
64-bit emitter variants have the same length and agree at every position
except the file header's machine field (bytes 0 and 1) and its characteristics
bitmask (bytes 18 and 19). -/
theorem wordsize_independent_layout (data startName endName : List Nat)
    (alignment : Nat) (accessFlags : AccessFlags) (out32 out64 : List Nat)
    (h32 : PEObjectWriter.write 4 data startName endName alignment accessFlags
      = Except.ok out32)
    (h64 : PEObjectWriter.write 8 data startName endName alignment accessFlags
      = Except.ok out64) :
    out32.length = out64.length
    ∧ ∀ i, i ≠ 0 → i ≠ 1 → i ≠ 18 → i ≠ 19 →
        out32[i]? = out64[i]? := by
  cases halign : alignSectionMask alignment with
  | none =>
    rw [write_err halign] at h32
    exact absurd h32 (by simp)
  | some am =>
    rw [write_ok halign] at h32
    rw [write_ok halign] at h64
    simp only [Except.ok.injEq] at h32 h64
    subst h32
    subst h64
    constructor
    · simp [writeObject, fileHeader_bytes_length]
    · intro i i0 i1 i18 i19
      rw [writeObject_fileHeader_split, writeObject_fileHeader_split]
      refine getElem?_patch _ _ _ _ _ _ ?_ ?_ ?_ ?_ ?_ i i0 i1 i18 i19 <;>
        simp [u16le, u32le]

/-- C9 witness: the position-2 agreement and the length equality instantiated
on a one-byte blob at alignment 0. -/
theorem wordsize_independent_layout_witness :
    (writeObject [170] [97] [98]
        (sectionChoice IMAGE_SCN_ALIGN_1BYTES ⟨false, false⟩).1
        (machineFor 4) (machineMaskFor 4)
        (sectionChoice IMAGE_SCN_ALIGN_1BYTES ⟨false, false⟩).2).length
      = (writeObject [170] [97] [98]
        (sectionChoice IMAGE_SCN_ALIGN_1BYTES ⟨false, false⟩).1
        (machineFor 8) (machineMaskFor 8)
        (sectionChoice IMAGE_SCN_ALIGN_1BYTES ⟨false, false⟩).2).length
    ∧ (writeObject [170] [97] [98]
        (sectionChoice IMAGE_SCN_ALIGN_1BYTES ⟨false, false⟩).1
        (machineFor 4) (machineMaskFor 4)
        (sectionChoice IMAGE_SCN_ALIGN_1BYTES ⟨false, false⟩).2)[2]?
      = (writeObject [170] [97] [98]
        (sectionChoice IMAGE_SCN_ALIGN_1BYTES ⟨false, false⟩).1
        (machineFor 8) (machineMaskFor 8)
        (sectionChoice IMAGE_SCN_ALIGN_1BYTES ⟨false, false⟩).2)[2]? := by
  have h := wordsize_independent_layout [170] [97] [98] 0 ⟨false, false⟩ _ _
    (write_ok (show alignSectionMask 0 = some IMAGE_SCN_ALIGN_1BYTES from rfl)
      _ _ _ _ _)
    (write_ok (show alignSectionMask 0 = some IMAGE_SCN_ALIGN_1BYTES from rfl)
      _ _ _ _ _)
  exact ⟨h.1, h.2 2 (by decide) (by decide) (by decide) (by decide)⟩

/-! ### Claim C10 -/

/-- C10: every field the spec leaves unmentioned is zero: the file header's
timestamp and optional-header size, the section header's virtual address,
relocation and line-number pointers and counts, and in both symbol records the
Type field and the inline short-name word, while each record's long-name word
holds its string-table offset. -/
theorem unmentioned_fields_zero (size machine machineMask sectionMask : Nat)
    (sectionName startName : List Nat) :
    (writeObject.fileHeader size machine machineMask).TimeDateStamp = 0
    ∧ (writeObject.fileHeader size machine machineMask).SizeOfOptionalHeader = 0
    ∧ (writeObject.sectionHeader size sectionName sectionMask).VirtualAddress = 0
    ∧ (writeObject.sectionHeader size sectionName sectionMask).PointerToRelocations = 0
    ∧ (writeObject.sectionHeader size sectionName sectionMask).PointerToLinenumbers = 0
    ∧ (writeObject.sectionHeader size sectionName sectionMask).NumberOfRelocations = 0
    ∧ (writeObject.sectionHeader size sectionName sectionMask).NumberOfLinenumbers = 0
    ∧ writeObject.startSymbol.SymbolType = 0
    ∧ writeObject.startSymbol.NShort = 0
    ∧ (writeObject.endSymbol size startName).SymbolType = 0
    ∧ (writeObject.endSymbol size startName).NShort = 0
    ∧ writeObject.startSymbol.NLong = writeObject.startNameOffset
    ∧ (writeObject.endSymbol size startName).NLong
        = writeObject.endNameOffset startName :=
  ⟨rfl, rfl, rfl, rfl, rfl, rfl, rfl, rfl, rfl, rfl, rfl, rfl, rfl⟩

end PE
